import Mathlib

/-!
Shallow embedding of the clinical-text annotation core of
`Healthcare_scribe_app_refined.py` (class `HealthcareScribeApp`): the
terminology catalog (`load_medical_terminology`), the entity extractor
(`extract_medical_entities`: catalog containment scan, the
medication-dosage rule and the two vital-sign rules), the SOAP section
classifier (`_extract_section`) and the note structurer
(`structure_clinical_note`).

Text is modelled as a list of characters (ASCII fragment of Python
`str`).  The three Python regular expressions used by the source —
`(\w+)\s+(\d+mg)` under `re.finditer`, and `bp\s+(\d+/\d+)`,
`hr\s+(\d+)` under `re.search` — are embedded by their backtracking
semantics specialised to these concrete patterns: each quantifier in
them is forced to its maximal run by the character class that follows
it, so leftmost scanning with maximal runs is the exact behaviour.
The spaCy model availability check (`if not self.nlp`) is modelled by a
Boolean parameter `nlpAvailable`; the wall clock read
(`datetime.now().isoformat()`) by an explicit `now` parameter.
-/

set_option maxRecDepth 100000

/-- Text: a list of characters. -/
abbrev Str := List Char

/-- Convert a Lean string literal into the character-list model. -/
def toL (s : String) : Str := s.toList

/-- Python `str.lower()` (ASCII). -/
def lowerStr (s : Str) : Str := s.map Char.toLower

/-- Python substring containment `needle in hay`. -/
def containsSub (hay needle : Str) : Bool :=
  match hay with
  | [] => needle.isEmpty
  | _ :: t => needle.isPrefixOf hay || containsSub t needle

/-- Number of (possibly overlapping) occurrences of `needle` in `hay`. -/
def countSub (hay needle : Str) : Nat :=
  match hay with
  | [] => if needle.isEmpty then 1 else 0
  | _ :: t => (if needle.isPrefixOf hay then 1 else 0) + countSub t needle

/-- Python regex `\w` on ASCII: letters, digits, underscore. -/
def isWordChar (c : Char) : Bool := c.isAlphanum || c == '_'

/-- Split off the maximal run of characters satisfying `p` (greedy run). -/
def spanP (p : Char → Bool) : Str → Str × Str
  | [] => ([], [])
  | c :: t =>
    if p c then
      let r := spanP p t
      (c :: r.1, r.2)
    else ([], c :: t)

/-- Attempt of `(\w+)\s+(\d+mg)` anchored at the start of `s`
(Healthcare_scribe_app_refined.py line 85).  Greedy `\w+` must end where
whitespace starts, `\s+` where a digit starts, `\d+` where the literal
`mg` starts, so the only possible match takes maximal runs.  Returns
(group 1, group 2, rest of the text after the match). -/
def matchDoseAt (s : Str) : Option (Str × Str × Str) :=
  let w := spanP isWordChar s
  if w.1.isEmpty then none else
  let sp := spanP Char.isWhitespace w.2
  if sp.1.isEmpty then none else
  let d := spanP Char.isDigit sp.2
  if d.1.isEmpty then none else
  match d.2 with
  | 'm' :: 'g' :: rest => some (w.1, d.1 ++ toL "mg", rest)
  | _ => none

/-- `re.finditer` loop for the dosage pattern, fuelled by the text
length (every step consumes at least one character, so the fuel never
runs out before the text does); produces the formatted entries
`f"{group1} {group2}"` of line 87 in text order. -/
def findDoseAux : Nat → Str → List Str
  | 0, _ => []
  | _ + 1, [] => []
  | fuel + 1, c :: t =>
    match matchDoseAt (c :: t) with
    | some (g1, g2, rest) => (g1 ++ ' ' :: g2) :: findDoseAux fuel rest
    | none => findDoseAux fuel t

/-- All non-overlapping dosage matches, leftmost first (line 86). -/
def findDose (s : Str) : List Str := findDoseAux s.length s

/-- Attempt of `bp\s+(\d+/\d+)` anchored at the start of `s` (line 90). -/
def matchBPAt (s : Str) : Option Str :=
  match s with
  | 'b' :: 'p' :: r =>
    let sp := spanP Char.isWhitespace r
    if sp.1.isEmpty then none else
    let d1 := spanP Char.isDigit sp.2
    if d1.1.isEmpty then none else
    match d1.2 with
    | '/' :: r2 =>
      let d2 := spanP Char.isDigit r2
      if d2.1.isEmpty then none else some (d1.1 ++ '/' :: d2.1)
    | _ => none
  | _ => none

/-- `re.search` for the blood-pressure pattern: group of the leftmost
match (line 93). -/
def searchBP : Str → Option Str
  | [] => none
  | c :: t =>
    match matchBPAt (c :: t) with
    | some g => some g
    | none => searchBP t

/-- Attempt of `hr\s+(\d+)` anchored at the start of `s` (line 91). -/
def matchHRAt (s : Str) : Option Str :=
  match s with
  | 'h' :: 'r' :: r =>
    let sp := spanP Char.isWhitespace r
    if sp.1.isEmpty then none else
    let d1 := spanP Char.isDigit sp.2
    if d1.1.isEmpty then none else some d1.1
  | _ => none

/-- `re.search` for the heart-rate pattern: group of the leftmost match
(line 94). -/
def searchHR : Str → Option Str
  | [] => none
  | c :: t =>
    match matchHRAt (c :: t) with
    | some g => some g
    | none => searchHR t

/-- The `entities` dictionary of `extract_medical_entities`: an
insertion-ordered association list from category name to the list of
matches, mirroring a Python `dict` of lists. -/
abbrev EMap := List (Str × List Str)

/-- Dictionary lookup `entities[key]` (`none` when the key is absent). -/
def lookupE : EMap → Str → Option (List Str)
  | [], _ => none
  | (k, vs) :: rest, key => if k = key then some vs else lookupE rest key

/-- `entities[key].append(v)` (no effect when the key is absent). -/
def appendE : EMap → Str → Str → EMap
  | [], _, _ => []
  | (k, vs) :: rest, key, v =>
    if k = key then (k, vs ++ [v]) :: rest else (k, vs) :: appendE rest key v

/-- Lookup defaulting to the empty list. -/
def getE (m : EMap) (key : Str) : List Str := (lookupE m key).getD []

/-- The keys of the dictionary, in order. -/
def keysOf (m : EMap) : List Str := m.map Prod.fst

def kSymptoms : Str := toL "symptoms"
def kMedications : Str := toL "medications"
def kDiagnoses : Str := toL "diagnoses"
def kProcedures : Str := toL "procedures"
def kVitals : Str := toL "vitals"
def kDates : Str := toL "dates"

def symptomTerms : List Str :=
  [toL "chest pain", toL "headache", toL "fever", toL "cough",
   toL "shortness of breath", toL "fatigue"]

def medicationTerms : List Str :=
  [toL "ibuprofen", toL "aspirin", toL "claritin", toL "zyrtec", toL "allegra"]

def diagnosisTerms : List Str :=
  [toL "allergic rhinitis", toL "hypertension", toL "diabetes", toL "asthma",
   toL "angina"]

def procedureTerms : List Str :=
  [toL "echocardiogram", toL "gastric bypass", toL "endoscopy"]

/-- `load_medical_terminology` (lines 55-62): the fixed category table,
in the source's insertion order. -/
def load_medical_terminology : List (Str × List Str) :=
  [(kSymptoms, symptomTerms), (kMedications, medicationTerms),
   (kDiagnoses, diagnosisTerms), (kProcedures, procedureTerms)]

/-- Lines 70-71: `entities = {category: [] for category in
self.medical_terms.keys()}` followed by
`entities.update({'vitals': [], 'dates': []})`. -/
def initEntities : EMap :=
  load_medical_terminology.map (fun p => (p.1, ([] : List Str)))
    ++ [(kVitals, []), (kDates, [])]

/-- One step of the catalog scan (lines 80-82): append `term` to its
category iff it occurs in the lowered text. -/
def catStep (text_lower cat : Str) (acc : EMap) (term : Str) : EMap :=
  if containsSub text_lower term then appendE acc cat term else acc

/-- Lines 79-82: the nested `for category, terms ... for term in terms`
catalog scan. -/
def catalogScan (m : EMap) (text_lower : Str) : EMap :=
  load_medical_terminology.foldl (fun acc p => p.2.foldl (catStep text_lower p.1) acc) m

/-- Lines 84-87: append every dosage-pattern match to `medications`. -/
def addDoseMeds (m : EMap) (text_lower : Str) : EMap :=
  (findDose text_lower).foldl (fun acc g => appendE acc kMedications g) m

/-- Lines 89-99: append the first blood-pressure match, then the first
heart-rate match, to `vitals`. -/
def addVitals (m : EMap) (text_lower : Str) : EMap :=
  let m1 :=
    match searchBP text_lower with
    | some g => appendE m kVitals (toL "BP: " ++ g)
    | none => m
  match searchHR text_lower with
  | some g => appendE m1 kVitals (toL "HR: " ++ g)
  | none => m1

/-- `extract_medical_entities` (lines 68-101).  `nlpAvailable` models
the truthiness of `self.nlp`; when it is false the source returns the
freshly initialised dictionary immediately (line 73-74). -/
def extract_medical_entities (nlpAvailable : Bool) (text : Str) : EMap :=
  match nlpAvailable with
  | false => initEntities
  | true =>
    let text_lower := lowerStr text
    addVitals (addDoseMeds (catalogScan initEntities text_lower) text_lower) text_lower

/-- Python `text.split('.')` (line 127): keeps empty pieces, returns at
least one piece. -/
def splitOnDot : Str → List Str
  | [] => [[]]
  | c :: t =>
    if c = '.' then [] :: splitOnDot t
    else
      match splitOnDot t with
      | [] => [c] :: []
      | s :: rest => (c :: s) :: rest

/-- Python `str.strip()` (ASCII whitespace at both ends). -/
def stripStr (s : Str) : Str :=
  ((s.dropWhile Char.isWhitespace).reverse.dropWhile Char.isWhitespace).reverse

/-- Python `'. '.join(l)`. -/
def joinDotSpace : List Str → Str
  | [] => []
  | [s] => s
  | s :: rest => s ++ '.' :: ' ' :: joinDotSpace rest

/-- Loop body of `_extract_section` (lines 130-132): keep the stripped
sentence iff some keyword occurs in its lowering. -/
def sectionStep (keywords : List Str) (acc : List Str) (sentence : Str) : List Str :=
  if keywords.any (fun keyword => containsSub (lowerStr sentence) keyword) then
    acc ++ [stripStr sentence]
  else acc

/-- `_extract_section` (lines 125-134). -/
def extract_section (text : Str) (keywords : List Str) : Str :=
  let relevant_sentences := (splitOnDot text).foldl (sectionStep keywords) []
  if relevant_sentences.isEmpty then [] else joinDotSpace relevant_sentences

def subjectiveKeywords : List Str := [toL "presents", toL "complains", toL "reports"]
def objectiveKeywords : List Str := [toL "vitals", toL "exam", toL "bp", toL "hr"]
def assessmentKeywords : List Str := [toL "assessment", toL "diagnosis", toL "impression"]
def planKeywords : List Str := [toL "plan", toL "prescribed", toL "follow up"]

/-- The dictionary returned by `structure_clinical_note` (lines
115-123). -/
structure StructuredNote where
  subjective : Str
  objective : Str
  assessment : Str
  plan : Str
  medical_specialty : Str
  extracted_entities : EMap
  timestamp : Str

/-- Python `s or fallbackText` for strings: the falsy empty string is
replaced. -/
def orStr (s fallbackText : Str) : Str := if s.isEmpty then fallbackText else s

/-- `structure_clinical_note` (lines 103-123).  `now` models
`datetime.now().isoformat()`. -/
def structure_clinical_note (nlpAvailable : Bool) (text medical_specialty now : Str) :
    StructuredNote :=
  let entities := extract_medical_entities nlpAvailable text
  let subjective := extract_section text subjectiveKeywords
  let objective := extract_section text objectiveKeywords
  let assessment := extract_section text assessmentKeywords
  let plan := extract_section text planKeywords
  { subjective := orStr subjective (toL "No subjective information documented."),
    objective := orStr objective (toL "No objective findings documented."),
    assessment := orStr assessment (toL "No assessment documented."),
    plan := orStr plan (toL "No plan documented."),
    medical_specialty := medical_specialty,
    extracted_entities := entities,
    timestamp := now }

/-- The transcript used in the spec's concrete test vector. -/
def t6 : Str :=
  toL "Patient presents with chest pain. Vitals: BP 120/80, HR 85. Assessment: Possible angina. Plan: Prescribed ibuprofen 200mg twice daily."

/-! ### Dictionary lemmas -/

lemma lookupE_appendE_ne (m : EMap) (key v key2 : Str) (h : ¬ key = key2) :
    lookupE (appendE m key v) key2 = lookupE m key2 := by
  induction m with
  | nil => rfl
  | cons p rest ih =>
    obtain ⟨k, vs⟩ := p
    by_cases hk : k = key
    · subst hk
      simp only [appendE, if_pos rfl, lookupE, if_neg h]
    · simp only [appendE, if_neg hk, lookupE]
      by_cases hk2 : k = key2
      · simp [hk2]
      · simp [hk2, ih]

lemma lookupE_appendE_eq (m : EMap) (key v : Str) :
    lookupE (appendE m key v) key = Option.map (fun vs => vs ++ [v]) (lookupE m key) := by
  induction m with
  | nil => rfl
  | cons p rest ih =>
    obtain ⟨k, vs⟩ := p
    by_cases hk : k = key
    · subst hk
      simp [appendE, lookupE]
    · simp [appendE, lookupE, hk, ih]

lemma keysOf_appendE (m : EMap) (key v : Str) :
    keysOf (appendE m key v) = keysOf m := by
  induction m with
  | nil => rfl
  | cons p rest ih =>
    obtain ⟨k, vs⟩ := p
    by_cases hk : k = key
    · simp [appendE, hk, keysOf]
    · simp only [appendE, if_neg hk, keysOf, List.map_cons]
      simpa [keysOf] using ih

/-! ### Catalog-scan lemmas -/

lemma catFold_lookup_ne (tl cat key : Str) (h : ¬ cat = key) (terms : List Str) :
    ∀ m : EMap, lookupE (terms.foldl (catStep tl cat) m) key = lookupE m key := by
  induction terms with
  | nil => intro m; rfl
  | cons term ts ih =>
    intro m
    rw [List.foldl_cons, ih]
    unfold catStep
    split
    · exact lookupE_appendE_ne m cat term key h
    · rfl

lemma catFold_lookup_eq (tl cat : Str) (terms : List Str) :
    ∀ (m : EMap) (vs : List Str), lookupE m cat = some vs →
      lookupE (terms.foldl (catStep tl cat) m) cat
        = some (vs ++ terms.filter (fun term => containsSub tl term)) := by
  induction terms with
  | nil => intro m vs h; simpa using h
  | cons term ts ih =>
    intro m vs h
    rw [List.foldl_cons]
    by_cases hc : containsSub tl term = true
    · have hstep : catStep tl cat m term = appendE m cat term := by
        simp [catStep, hc]
      have h2 : lookupE (appendE m cat term) cat = some (vs ++ [term]) := by
        rw [lookupE_appendE_eq, h]; rfl
      rw [hstep, ih _ _ h2, List.filter_cons, if_pos hc]
      simp
    · have hstep : catStep tl cat m term = m := by
        simp [catStep, hc]
      rw [hstep, ih _ _ h, List.filter_cons, if_neg hc]

lemma keysOf_catFold (tl cat : Str) (terms : List Str) :
    ∀ m : EMap, keysOf (terms.foldl (catStep tl cat) m) = keysOf m := by
  induction terms with
  | nil => intro m; rfl
  | cons term ts ih =>
    intro m
    rw [List.foldl_cons, ih]
    unfold catStep
    split
    · exact keysOf_appendE m cat term
    · rfl

lemma catalogScan_eq (m : EMap) (tl : Str) :
    catalogScan m tl =
      procedureTerms.foldl (catStep tl kProcedures)
        (diagnosisTerms.foldl (catStep tl kDiagnoses)
          (medicationTerms.foldl (catStep tl kMedications)
            (symptomTerms.foldl (catStep tl kSymptoms) m))) := rfl

lemma catalogScan_lookup_ne (m : EMap) (tl key : Str)
    (h1 : ¬ kSymptoms = key) (h2 : ¬ kMedications = key)
    (h3 : ¬ kDiagnoses = key) (h4 : ¬ kProcedures = key) :
    lookupE (catalogScan m tl) key = lookupE m key := by
  rw [catalogScan_eq, catFold_lookup_ne _ _ _ h4, catFold_lookup_ne _ _ _ h3,
    catFold_lookup_ne _ _ _ h2, catFold_lookup_ne _ _ _ h1]

lemma keysOf_catalogScan (m : EMap) (tl : Str) :
    keysOf (catalogScan m tl) = keysOf m := by
  rw [catalogScan_eq, keysOf_catFold, keysOf_catFold, keysOf_catFold, keysOf_catFold]

/-! ### Dosage-append and vitals-append lemmas -/

lemma foldl_appendE_lookup_ne (key key2 : Str) (h : ¬ key = key2) (gs : List Str) :
    ∀ m : EMap, lookupE (gs.foldl (fun acc g => appendE acc key g) m) key2 = lookupE m key2 := by
  induction gs with
  | nil => intro m; rfl
  | cons g gs ih =>
    intro m
    rw [List.foldl_cons, ih, lookupE_appendE_ne _ _ _ _ h]

lemma foldl_appendE_lookup_eq (key : Str) (gs : List Str) :
    ∀ (m : EMap) (vs : List Str), lookupE m key = some vs →
      lookupE (gs.foldl (fun acc g => appendE acc key g) m) key = some (vs ++ gs) := by
  induction gs with
  | nil => intro m vs h; simpa using h
  | cons g gs ih =>
    intro m vs h
    rw [List.foldl_cons]
    have h2 : lookupE (appendE m key g) key = some (vs ++ [g]) := by
      rw [lookupE_appendE_eq, h]; rfl
    rw [ih _ _ h2]
    simp

lemma keysOf_foldl_appendE (key : Str) (gs : List Str) :
    ∀ m : EMap, keysOf (gs.foldl (fun acc g => appendE acc key g) m) = keysOf m := by
  induction gs with
  | nil => intro m; rfl
  | cons g gs ih =>
    intro m
    rw [List.foldl_cons, ih, keysOf_appendE]

lemma addDoseMeds_lookup_ne (m : EMap) (tl key : Str) (h : ¬ kMedications = key) :
    lookupE (addDoseMeds m tl) key = lookupE m key := by
  unfold addDoseMeds
  exact foldl_appendE_lookup_ne _ _ h _ m

lemma addDoseMeds_lookup_eq (m : EMap) (tl : Str) (vs : List Str)
    (h : lookupE m kMedications = some vs) :
    lookupE (addDoseMeds m tl) kMedications = some (vs ++ findDose tl) := by
  unfold addDoseMeds
  exact foldl_appendE_lookup_eq _ _ m vs h

lemma keysOf_addDoseMeds (m : EMap) (tl : Str) :
    keysOf (addDoseMeds m tl) = keysOf m := by
  unfold addDoseMeds
  exact keysOf_foldl_appendE _ _ m

/-- The single blood-pressure entry appended to `vitals` (lines 96-97),
as a zero- or one-element list. -/
def bpEntry (tl : Str) : List Str :=
  match searchBP tl with
  | some g => [toL "BP: " ++ g]
  | none => []

/-- The single heart-rate entry appended to `vitals` (lines 98-99). -/
def hrEntry (tl : Str) : List Str :=
  match searchHR tl with
  | some g => [toL "HR: " ++ g]
  | none => []

lemma addVitals_lookup_ne (m : EMap) (tl key : Str) (h : ¬ kVitals = key) :
    lookupE (addVitals m tl) key = lookupE m key := by
  unfold addVitals
  cases hbp : searchBP tl <;> cases hhr : searchHR tl <;>
    simp [lookupE_appendE_ne _ _ _ _ h]

lemma addVitals_lookup_eq (m : EMap) (tl : Str) (vs : List Str)
    (h : lookupE m kVitals = some vs) :
    lookupE (addVitals m tl) kVitals = some (vs ++ (bpEntry tl ++ hrEntry tl)) := by
  unfold addVitals bpEntry hrEntry
  cases hbp : searchBP tl <;> cases hhr : searchHR tl <;>
    simp [lookupE_appendE_eq, h]

lemma keysOf_addVitals (m : EMap) (tl : Str) :
    keysOf (addVitals m tl) = keysOf m := by
  unfold addVitals
  cases hbp : searchBP tl <;> cases hhr : searchHR tl <;>
    simp [keysOf_appendE]

/-! ### Per-key equations for the extractor -/

lemma extract_true_eq (t : Str) :
    extract_medical_entities true t
      = addVitals (addDoseMeds (catalogScan initEntities (lowerStr t)) (lowerStr t)) (lowerStr t) := rfl

lemma extract_symptoms (t : Str) :
    lookupE (extract_medical_entities true t) kSymptoms
      = some (symptomTerms.filter (fun term => containsSub (lowerStr t) term)) := by
  rw [extract_true_eq, addVitals_lookup_ne _ _ _ (by decide),
    addDoseMeds_lookup_ne _ _ _ (by decide), catalogScan_eq,
    catFold_lookup_ne _ _ _ (by decide), catFold_lookup_ne _ _ _ (by decide),
    catFold_lookup_ne _ _ _ (by decide)]
  simpa using catFold_lookup_eq (lowerStr t) kSymptoms symptomTerms initEntities [] rfl

lemma extract_meds (t : Str) :
    lookupE (extract_medical_entities true t) kMedications
      = some (medicationTerms.filter (fun term => containsSub (lowerStr t) term)
          ++ findDose (lowerStr t)) := by
  rw [extract_true_eq, addVitals_lookup_ne _ _ _ (by decide)]
  have hscan : lookupE (catalogScan initEntities (lowerStr t)) kMedications
      = some (medicationTerms.filter (fun term => containsSub (lowerStr t) term)) := by
    rw [catalogScan_eq, catFold_lookup_ne _ _ _ (by decide),
      catFold_lookup_ne _ _ _ (by decide)]
    have hsym : lookupE (symptomTerms.foldl (catStep (lowerStr t) kSymptoms) initEntities)
        kMedications = some [] := by
      rw [catFold_lookup_ne _ _ _ (by decide)]; rfl
    simpa using catFold_lookup_eq (lowerStr t) kMedications medicationTerms _ [] hsym
  exact addDoseMeds_lookup_eq _ _ _ hscan

lemma extract_diagnoses (t : Str) :
    lookupE (extract_medical_entities true t) kDiagnoses
      = some (diagnosisTerms.filter (fun term => containsSub (lowerStr t) term)) := by
  rw [extract_true_eq, addVitals_lookup_ne _ _ _ (by decide),
    addDoseMeds_lookup_ne _ _ _ (by decide), catalogScan_eq,
    catFold_lookup_ne _ _ _ (by decide)]
  have h0 : lookupE (medicationTerms.foldl (catStep (lowerStr t) kMedications)
      (symptomTerms.foldl (catStep (lowerStr t) kSymptoms) initEntities)) kDiagnoses
      = some [] := by
    rw [catFold_lookup_ne _ _ _ (by decide), catFold_lookup_ne _ _ _ (by decide)]; rfl
  simpa using catFold_lookup_eq (lowerStr t) kDiagnoses diagnosisTerms _ [] h0

lemma extract_procedures (t : Str) :
    lookupE (extract_medical_entities true t) kProcedures
      = some (procedureTerms.filter (fun term => containsSub (lowerStr t) term)) := by
  rw [extract_true_eq, addVitals_lookup_ne _ _ _ (by decide),
    addDoseMeds_lookup_ne _ _ _ (by decide), catalogScan_eq]
  have h0 : lookupE (diagnosisTerms.foldl (catStep (lowerStr t) kDiagnoses)
      (medicationTerms.foldl (catStep (lowerStr t) kMedications)
        (symptomTerms.foldl (catStep (lowerStr t) kSymptoms) initEntities))) kProcedures
      = some [] := by
    rw [catFold_lookup_ne _ _ _ (by decide), catFold_lookup_ne _ _ _ (by decide),
      catFold_lookup_ne _ _ _ (by decide)]; rfl
  simpa using catFold_lookup_eq (lowerStr t) kProcedures procedureTerms _ [] h0

lemma extract_vitals (t : Str) :
    lookupE (extract_medical_entities true t) kVitals
      = some (bpEntry (lowerStr t) ++ hrEntry (lowerStr t)) := by
  rw [extract_true_eq]
  have h0 : lookupE (addDoseMeds (catalogScan initEntities (lowerStr t)) (lowerStr t))
      kVitals = some [] := by
    rw [addDoseMeds_lookup_ne _ _ _ (by decide),
      catalogScan_lookup_ne _ _ _ (by decide) (by decide) (by decide) (by decide)]
    rfl
  simpa using addVitals_lookup_eq _ _ [] h0

lemma extract_dates (b : Bool) (t : Str) :
    lookupE (extract_medical_entities b t) kDates = some [] := by
  cases b
  · rfl
  · rw [extract_true_eq, addVitals_lookup_ne _ _ _ (by decide),
      addDoseMeds_lookup_ne _ _ _ (by decide),
      catalogScan_lookup_ne _ _ _ (by decide) (by decide) (by decide) (by decide)]
    rfl

lemma keysOf_extract (b : Bool) (t : Str) :
    keysOf (extract_medical_entities b t)
      = [kSymptoms, kMedications, kDiagnoses, kProcedures, kVitals, kDates] := by
  cases b
  · rfl
  · rw [extract_true_eq, keysOf_addVitals, keysOf_addDoseMeds, keysOf_catalogScan]
    rfl

/-! ### Section-classifier lemmas -/

lemma sectionFold_eq (kws : List Str) (l : List Str) :
    ∀ acc : List Str,
      l.foldl (sectionStep kws) acc
        = acc ++ (l.filter (fun s => kws.any (fun k => containsSub (lowerStr s) k))).map stripStr := by
  induction l with
  | nil => intro acc; simp
  | cons s t ih =>
    intro acc
    rw [List.foldl_cons]
    by_cases h : (kws.any (fun k => containsSub (lowerStr s) k)) = true
    · have hstep : sectionStep kws acc s = acc ++ [stripStr s] := by
        simp [sectionStep, h]
      rw [hstep, ih, List.filter_cons, if_pos h]
      simp
    · have hstep : sectionStep kws acc s = acc := by
        simp [sectionStep, h]
      rw [hstep, ih, List.filter_cons, if_neg h]

lemma extract_section_eq (text : Str) (kws : List Str) :
    extract_section text kws
      = joinDotSpace
          (((splitOnDot text).filter
              (fun s => kws.any (fun k => containsSub (lowerStr s) k))).map stripStr) := by
  unfold extract_section
  rw [sectionFold_eq, List.nil_append]
  cases hX : ((splitOnDot text).filter
      (fun s => kws.any (fun k => containsSub (lowerStr s) k))).map stripStr with
  | nil => rfl
  | cons a l => rfl

lemma extract_section_nil (text : Str) (kws : List Str)
    (h : ∀ s ∈ splitOnDot text, (kws.any (fun k => containsSub (lowerStr s) k)) = false) :
    extract_section text kws = [] := by
  rw [extract_section_eq]
  have hf : (splitOnDot text).filter
      (fun s => kws.any (fun k => containsSub (lowerStr s) k)) = [] := by
    rw [List.filter_eq_nil_iff]
    intro a ha
    simp [h a ha]
  rw [hf]
  rfl

lemma splitOnDot_no_dot (text : Str) (h : ∀ c ∈ text, ¬ c = '.') :
    splitOnDot text = [text] := by
  induction text with
  | nil => rfl
  | cons c t ih =>
    have hc : ¬ c = '.' := h c (List.mem_cons_self c t)
    have ht : ∀ x ∈ t, ¬ x = '.' := fun x hx => h x (List.mem_cons_of_mem _ hx)
    simp only [splitOnDot, if_neg hc, ih ht]

lemma extract_section_no_dot (text : Str) (kws : List Str) (h : ∀ c ∈ text, ¬ c = '.') :
    extract_section text kws
      = if kws.any (fun k => containsSub (lowerStr text) k) then stripStr text else [] := by
  rw [extract_section_eq, splitOnDot_no_dot text h]
  by_cases hc : (kws.any (fun k => containsSub (lowerStr text) k)) = true
  · rw [if_pos hc, List.filter_cons, if_pos hc]
    rfl
  · rw [if_neg hc, List.filter_cons, if_neg hc]
    rfl

/-! ### Structurer lemmas -/

lemma note_subjective (b : Bool) (text sp now : Str) :
    (structure_clinical_note b text sp now).subjective
      = orStr (extract_section text subjectiveKeywords)
          (toL "No subjective information documented.") := rfl

lemma note_objective (b : Bool) (text sp now : Str) :
    (structure_clinical_note b text sp now).objective
      = orStr (extract_section text objectiveKeywords)
          (toL "No objective findings documented.") := rfl

lemma note_assessment (b : Bool) (text sp now : Str) :
    (structure_clinical_note b text sp now).assessment
      = orStr (extract_section text assessmentKeywords)
          (toL "No assessment documented.") := rfl

lemma note_plan (b : Bool) (text sp now : Str) :
    (structure_clinical_note b text sp now).plan
      = orStr (extract_section text planKeywords)
          (toL "No plan documented.") := rfl

lemma note_entities (b : Bool) (text sp now : Str) :
    (structure_clinical_note b text sp now).extracted_entities
      = extract_medical_entities b text := rfl

lemma orStr_ne_nil (s fallbackText : Str) (h : ¬ fallbackText = []) :
    ¬ orStr s fallbackText = [] := by
  cases s with
  | nil => simpa [orStr] using h
  | cons a t => simp [orStr, List.isEmpty]

lemma nodup_countP_le_one (a : Str) :
    ∀ l : List Str, l.Nodup → l.countP (fun x => decide (x = a)) ≤ 1 := by
  intro l
  induction l with
  | nil => intro h; simp
  | cons x xs ih =>
    intro h
    obtain ⟨hx, hxs⟩ := List.nodup_cons.mp h
    rw [List.countP_cons]
    by_cases hax : x = a
    · subst hax
      have h0 : xs.countP (fun y => decide (y = x)) = 0 := by
        rw [List.countP_eq_zero]
        intro b hb
        simp only [decide_eq_true_eq]
        intro hbx
        exact hx (hbx ▸ hb)
      simp [h0]
    · have hfalse : (decide (x = a)) = false := by simp [hax]
      rw [hfalse]
      simpa using ih hxs

lemma bp_isPrefixOf_hr (g : Str) :
    ((toL "BP: ").isPrefixOf (toL "HR: " ++ g)) = false := rfl

lemma hr_isPrefixOf_bp (g : Str) :
    ((toL "HR: ").isPrefixOf (toL "BP: " ++ g)) = false := rfl

/-! ### Claims -/

/-- C1, counterexample: when the NLP model is absent the extractor does
NOT fall back to catalog+pattern matching — on the text `chest pain` it
returns an empty symptoms list while the catalog+pattern extraction
finds `chest pain`, so the absent-model result differs from pattern-only
extraction and is degenerate. -/
theorem C1_counterexample :
    lookupE (extract_medical_entities false (toL "chest pain")) kSymptoms = some []
  ∧ lookupE (extract_medical_entities true (toL "chest pain")) kSymptoms
      = some [toL "chest pain"]
  ∧ ¬ extract_medical_entities false (toL "chest pain")
      = extract_medical_entities true (toL "chest pain") := by decide

/-- C1, amended: when the NLP model is absent, `extract_medical_entities`
returns the freshly initialised dictionary unchanged — every category
key is present, every list is empty, and no catalog, dosage or
vital-sign matching is performed.  The call still does not fail. -/
theorem C1_amended (t : Str) :
    extract_medical_entities false t = initEntities
  ∧ keysOf (extract_medical_entities false t)
      = [kSymptoms, kMedications, kDiagnoses, kProcedures, kVitals, kDates]
  ∧ (extract_medical_entities false t).all (fun p => p.2.isEmpty) = true :=
  ⟨rfl, rfl, rfl⟩

/-- C2, counterexample: the catalog term `claritin` occurs twice in
`claritin and claritin`, yet the medications list of the extraction has
a single entry, not one entry per occurrence. -/
theorem C2_counterexample :
    countSub (lowerStr (toL "claritin and claritin")) (toL "claritin") = 2
  ∧ lookupE (extract_medical_entities true (toL "claritin and claritin")) kMedications
      = some [toL "claritin"] := by decide

/-- C2, amended: the catalog scan is a containment test, so a catalog
term is appended at most once per category no matter how often it
occurs; each category list holds each term at most once from that scan
(the medications list is that once-per-term scan result followed by the
separate dosage-pattern matches). -/
theorem C2_amended (t term : Str) :
    (getE (extract_medical_entities true t) kSymptoms).countP
        (fun x => decide (x = term)) ≤ 1
  ∧ (getE (extract_medical_entities true t) kDiagnoses).countP
        (fun x => decide (x = term)) ≤ 1
  ∧ (getE (extract_medical_entities true t) kProcedures).countP
        (fun x => decide (x = term)) ≤ 1
  ∧ (medicationTerms.filter (fun tm => containsSub (lowerStr t) tm)).countP
        (fun x => decide (x = term)) ≤ 1
  ∧ getE (extract_medical_entities true t) kMedications
      = medicationTerms.filter (fun tm => containsSub (lowerStr t) tm)
          ++ findDose (lowerStr t) := by
  have hs : getE (extract_medical_entities true t) kSymptoms
      = symptomTerms.filter (fun tm => containsSub (lowerStr t) tm) := by
    unfold getE; rw [extract_symptoms]; rfl
  have hd : getE (extract_medical_entities true t) kDiagnoses
      = diagnosisTerms.filter (fun tm => containsSub (lowerStr t) tm) := by
    unfold getE; rw [extract_diagnoses]; rfl
  have hp : getE (extract_medical_entities true t) kProcedures
      = procedureTerms.filter (fun tm => containsSub (lowerStr t) tm) := by
    unfold getE; rw [extract_procedures]; rfl
  have hm : getE (extract_medical_entities true t) kMedications
      = medicationTerms.filter (fun tm => containsSub (lowerStr t) tm)
          ++ findDose (lowerStr t) := by
    unfold getE; rw [extract_meds]; rfl
  refine ⟨?_, ?_, ?_, ?_, hm⟩
  · rw [hs]
    exact nodup_countP_le_one term _ ((show symptomTerms.Nodup by decide).filter _)
  · rw [hd]
    exact nodup_countP_le_one term _ ((show diagnosisTerms.Nodup by decide).filter _)
  · rw [hp]
    exact nodup_countP_le_one term _ ((show procedureTerms.Nodup by decide).filter _)
  · exact nodup_countP_le_one term _ ((show medicationTerms.Nodup by decide).filter _)

/-- C3: for every input text and either NLP availability, the extraction
result has exactly the catalog category keys plus `vitals` and `dates`,
in order; every key is bound to a list, and the `dates` list is always
empty. -/
theorem C3_every_key (b : Bool) (t : Str) :
    keysOf (extract_medical_entities b t)
      = [kSymptoms, kMedications, kDiagnoses, kProcedures, kVitals, kDates]
  ∧ lookupE (extract_medical_entities b t) kDates = some []
  ∧ (∃ l, lookupE (extract_medical_entities b t) kSymptoms = some l)
  ∧ (∃ l, lookupE (extract_medical_entities b t) kMedications = some l)
  ∧ (∃ l, lookupE (extract_medical_entities b t) kDiagnoses = some l)
  ∧ (∃ l, lookupE (extract_medical_entities b t) kProcedures = some l)
  ∧ (∃ l, lookupE (extract_medical_entities b t) kVitals = some l) := by
  cases b with
  | false =>
    exact ⟨rfl, rfl, ⟨[], rfl⟩, ⟨[], rfl⟩, ⟨[], rfl⟩, ⟨[], rfl⟩, ⟨[], rfl⟩⟩
  | true =>
    exact ⟨keysOf_extract true t, extract_dates true t, ⟨_, extract_symptoms t⟩,
      ⟨_, extract_meds t⟩, ⟨_, extract_diagnoses t⟩, ⟨_, extract_procedures t⟩,
      ⟨_, extract_vitals t⟩⟩

/-- C4: for every NLP availability, text, specialty and clock reading,
`structure_clinical_note` returns a well-formed note: the four section
fields are nonempty strings (a fallback replaces an empty section), the
entities mapping is present with all six keys, and the specialty and
timestamp fields carry the inputs.  The embedded function is total, so
no exception is possible. -/
theorem C4_wellformed (b : Bool) (text sp now : Str) :
    ¬ (structure_clinical_note b text sp now).subjective = []
  ∧ ¬ (structure_clinical_note b text sp now).objective = []
  ∧ ¬ (structure_clinical_note b text sp now).assessment = []
  ∧ ¬ (structure_clinical_note b text sp now).plan = []
  ∧ keysOf (structure_clinical_note b text sp now).extracted_entities
      = [kSymptoms, kMedications, kDiagnoses, kProcedures, kVitals, kDates]
  ∧ (structure_clinical_note b text sp now).medical_specialty = sp
  ∧ (structure_clinical_note b text sp now).timestamp = now := by
  refine ⟨?_, ?_, ?_, ?_, ?_, rfl, rfl⟩
  · rw [note_subjective]; exact orStr_ne_nil _ _ (by decide)
  · rw [note_objective]; exact orStr_ne_nil _ _ (by decide)
  · rw [note_assessment]; exact orStr_ne_nil _ _ (by decide)
  · rw [note_plan]; exact orStr_ne_nil _ _ (by decide)
  · rw [note_entities]; exact keysOf_extract b text

/-- C5: a SOAP section that receives zero sentence units is set to that
section's own fixed fallback string; in particular on the empty string
with specialty `Cardiology` all four sections are their fallbacks and
the entities mapping is all-empty under every key. -/
theorem C5_fallbacks :
    (∀ (b : Bool) (text sp now : Str),
      (∀ s ∈ splitOnDot text,
        (subjectiveKeywords.any (fun k => containsSub (lowerStr s) k)) = false) →
      (structure_clinical_note b text sp now).subjective
        = toL "No subjective information documented.")
  ∧ (∀ (b : Bool) (text sp now : Str),
      (∀ s ∈ splitOnDot text,
        (objectiveKeywords.any (fun k => containsSub (lowerStr s) k)) = false) →
      (structure_clinical_note b text sp now).objective
        = toL "No objective findings documented.")
  ∧ (∀ (b : Bool) (text sp now : Str),
      (∀ s ∈ splitOnDot text,
        (assessmentKeywords.any (fun k => containsSub (lowerStr s) k)) = false) →
      (structure_clinical_note b text sp now).assessment
        = toL "No assessment documented.")
  ∧ (∀ (b : Bool) (text sp now : Str),
      (∀ s ∈ splitOnDot text,
        (planKeywords.any (fun k => containsSub (lowerStr s) k)) = false) →
      (structure_clinical_note b text sp now).plan = toL "No plan documented.")
  ∧ (∀ (b : Bool) (now : Str),
      (structure_clinical_note b (toL "") (toL "Cardiology") now).subjective
        = toL "No subjective information documented."
    ∧ (structure_clinical_note b (toL "") (toL "Cardiology") now).objective
        = toL "No objective findings documented."
    ∧ (structure_clinical_note b (toL "") (toL "Cardiology") now).assessment
        = toL "No assessment documented."
    ∧ (structure_clinical_note b (toL "") (toL "Cardiology") now).plan
        = toL "No plan documented."
    ∧ (structure_clinical_note b (toL "") (toL "Cardiology") now).extracted_entities
        = [(kSymptoms, []), (kMedications, []), (kDiagnoses, []), (kProcedures, []),
           (kVitals, []), (kDates, [])]) := by
  refine ⟨?_, ?_, ?_, ?_, ?_⟩
  · intro b text sp now h
    rw [note_subjective, extract_section_nil text _ h]; rfl
  · intro b text sp now h
    rw [note_objective, extract_section_nil text _ h]; rfl
  · intro b text sp now h
    rw [note_assessment, extract_section_nil text _ h]; rfl
  · intro b text sp now h
    rw [note_plan, extract_section_nil text _ h]; rfl
  · intro b now
    refine ⟨rfl, rfl, rfl, rfl, ?_⟩
    cases b <;> rfl

/-- Witness for C5: a text with no section keyword gets all four
fallback strings. -/
theorem C5_fallbacks_witness :
    (structure_clinical_note true (toL "zzz") (toL "X") (toL "T")).subjective
      = toL "No subjective information documented."
  ∧ (structure_clinical_note true (toL "zzz") (toL "X") (toL "T")).objective
      = toL "No objective findings documented."
  ∧ (structure_clinical_note true (toL "zzz") (toL "X") (toL "T")).assessment
      = toL "No assessment documented."
  ∧ (structure_clinical_note true (toL "zzz") (toL "X") (toL "T")).plan
      = toL "No plan documented." :=
  ⟨C5_fallbacks.1 true (toL "zzz") (toL "X") (toL "T") (by decide),
   C5_fallbacks.2.1 true (toL "zzz") (toL "X") (toL "T") (by decide),
   C5_fallbacks.2.2.1 true (toL "zzz") (toL "X") (toL "T") (by decide),
   C5_fallbacks.2.2.2.1 true (toL "zzz") (toL "X") (toL "T") (by decide)⟩

/-- C6: on the spec's concrete transcript, extraction finds the symptom
`chest pain`, the vitals `BP: 120/80` and `HR: 85`, and the medication
`ibuprofen 200mg`. -/
theorem C6_concrete :
    toL "chest pain" ∈ getE (extract_medical_entities true t6) kSymptoms
  ∧ toL "BP: 120/80" ∈ getE (extract_medical_entities true t6) kVitals
  ∧ toL "HR: 85" ∈ getE (extract_medical_entities true t6) kVitals
  ∧ toL "ibuprofen 200mg" ∈ getE (extract_medical_entities true t6) kMedications := by
  decide

/-- C7: the medications list is always the plain catalog matches
followed by every non-overlapping dosage-pattern match of the lowered
text; the dosage rule is case-insensitive and lowercase-normalising
(`Claritin 10MG` and `claritin 10mg` both give `claritin 10mg`), adds to
— and is not deduplicated against — the plain-name match for the same
drug, and fires once per non-overlapping occurrence. -/
theorem C7_dosage :
    (∀ t : Str, getE (extract_medical_entities true t) kMedications
        = medicationTerms.filter (fun term => containsSub (lowerStr t) term)
            ++ findDose (lowerStr t))
  ∧ getE (extract_medical_entities true (toL "Claritin 10MG")) kMedications
      = [toL "claritin", toL "claritin 10mg"]
  ∧ getE (extract_medical_entities true (toL "claritin 10mg")) kMedications
      = [toL "claritin", toL "claritin 10mg"]
  ∧ getE (extract_medical_entities true (toL "claritin 10mg claritin 10mg")) kMedications
      = [toL "claritin", toL "claritin 10mg", toL "claritin 10mg"] := by
  refine ⟨?_, by decide, by decide, by decide⟩
  intro t
  unfold getE
  rw [extract_meds]
  rfl

/-- C8: the vitals list is one optional blood-pressure entry (from the
leftmost `bp <digits>/<digits>` match) followed by one optional
heart-rate entry (from the leftmost `hr <digits>` match), so it holds at
most one entry of each kind; repeated readings beyond the first are
ignored. -/
theorem C8_vitals :
    (∀ t : Str, getE (extract_medical_entities true t) kVitals
        = bpEntry (lowerStr t) ++ hrEntry (lowerStr t))
  ∧ (∀ t : Str,
      (getE (extract_medical_entities true t) kVitals).countP
          (fun s => (toL "BP: ").isPrefixOf s) ≤ 1
    ∧ (getE (extract_medical_entities true t) kVitals).countP
          (fun s => (toL "HR: ").isPrefixOf s) ≤ 1)
  ∧ getE (extract_medical_entities true (toL "bp 120/80 later bp 90/60 hr 70 hr 99"))
      kVitals = [toL "BP: 120/80", toL "HR: 70"] := by
  have hv : ∀ t : Str, getE (extract_medical_entities true t) kVitals
      = bpEntry (lowerStr t) ++ hrEntry (lowerStr t) := by
    intro t
    unfold getE
    rw [extract_vitals]
    rfl
  refine ⟨hv, ?_, by decide⟩
  intro t
  have hbplen : (bpEntry (lowerStr t)).length ≤ 1 := by
    unfold bpEntry; cases searchBP (lowerStr t) <;> simp
  have hhrlen : (hrEntry (lowerStr t)).length ≤ 1 := by
    unfold hrEntry; cases searchHR (lowerStr t) <;> simp
  have hbp0 : (hrEntry (lowerStr t)).countP (fun s => (toL "BP: ").isPrefixOf s) = 0 := by
    unfold hrEntry
    cases searchHR (lowerStr t) with
    | none => rfl
    | some g => simp [List.countP_cons, bp_isPrefixOf_hr]
  have hhr0 : (bpEntry (lowerStr t)).countP (fun s => (toL "HR: ").isPrefixOf s) = 0 := by
    unfold bpEntry
    cases searchBP (lowerStr t) with
    | none => rfl
    | some g => simp [List.countP_cons, hr_isPrefixOf_bp]
  constructor
  · rw [hv t, List.countP_append, hbp0]
    have := List.countP_le_length (l := bpEntry (lowerStr t))
      (p := fun s => (toL "BP: ").isPrefixOf s)
    omega
  · rw [hv t, List.countP_append, hhr0]
    have := List.countP_le_length (l := hrEntry (lowerStr t))
      (p := fun s => (toL "HR: ").isPrefixOf s)
    omega

/-- C9: the section classifier keeps exactly the sentence units (period
split) in which some keyword of the section occurs case-insensitively,
re-joined with a period and space in original order; a text with no
period is a single unit, classified whole against any keyword set. -/
theorem C9_classifier :
    (∀ (text : Str) (keywords : List Str),
      extract_section text keywords
        = joinDotSpace
            (((splitOnDot text).filter
                (fun s => keywords.any (fun k => containsSub (lowerStr s) k))).map stripStr))
  ∧ (∀ text : Str, (∀ c ∈ text, ¬ c = '.') → splitOnDot text = [text])
  ∧ (∀ (text : Str) (keywords : List Str), (∀ c ∈ text, ¬ c = '.') →
      extract_section text keywords
        = if keywords.any (fun k => containsSub (lowerStr text) k) then stripStr text
          else []) :=
  ⟨fun text keywords => extract_section_eq text keywords,
   fun text h => splitOnDot_no_dot text h,
   fun text keywords h => extract_section_no_dot text keywords h⟩

/-- Witness for C9: a period-free text is one unit; with a matching
keyword the whole stripped text becomes the section. -/
theorem C9_classifier_witness :
    splitOnDot (toL "no dots here") = [toL "no dots here"]
  ∧ extract_section (toL "patient presents and reports pain") subjectiveKeywords
      = stripStr (toL "patient presents and reports pain") :=
  ⟨C9_classifier.2.1 (toL "no dots here") (by decide),
   (C9_classifier.2.2 (toL "patient presents and reports pain") subjectiveKeywords
      (by decide)).trans (by decide)⟩

/-- C10: medications-list ordering invariant — the plain catalog matches
come first, in the fixed catalog order ibuprofen, aspirin, claritin,
zyrtec, allegra (not text order), and all dosage-pattern matches follow
them in text order. -/
theorem C10_medication_order :
    (∀ t : Str, getE (extract_medical_entities true t) kMedications
        = [toL "ibuprofen", toL "aspirin", toL "claritin", toL "zyrtec",
           toL "allegra"].filter (fun term => containsSub (lowerStr t) term)
            ++ findDose (lowerStr t))
  ∧ getE (extract_medical_entities true (toL "claritin before ibuprofen")) kMedications
      = [toL "ibuprofen", toL "claritin"]
  ∧ getE (extract_medical_entities true (toL "zyrtec 5mg then aspirin")) kMedications
      = [toL "aspirin", toL "zyrtec", toL "zyrtec 5mg"] := by
  refine ⟨?_, by decide, by decide⟩
  intro t
  unfold getE
  rw [extract_meds]
  rfl
